import Mathlib

/-!
# Booking validator and appointment lifecycle of the hospital-management backend

Shallow embedding of the appointment scheduling logic of the repository:
`apps/appointments/models.py` (the `Appointment` model, its `save`/`clean`
hooks and the conditional unique constraint), `apps/appointments/serializers.py`
(`AppointmentCreateSerializer`, `AppointmentUpdateSerializer`,
`AppointmentStatusUpdateSerializer`), `apps/appointments/views.py`
(`AppointmentCancelView.patch`, `AppointmentDetailView.delete`) and
`apps/doctors` (`Doctor.get_current_patient_count`,
`Doctor.can_accept_more_patients_today`, `DoctorAvailabilityView.get` /
`DoctorScheduleView.get` slot generation).

Encoding conventions:
* a time of day is a number of minutes since midnight (`9:00` is `540`,
  `17:00` is `1020`);
* a date is a number of days since an epoch; the weekday of date `d` is
  `d % 7`;
* an instant (Python `datetime`) is a number of minutes since the epoch:
  `datetime.combine(d, t)` is `d * 1440 + t`, and `date.today()` derived
  from the instant `now` is `now / 1440`;
* Django's per-field serializer validation collects one error list per
  field and rejects when any field has errors; only then does the
  cross-field `validate(attrs)` run, raising on the first failing check.
  We model the result as `Except (List Reason) _` whose error payload is
  the concatenation of the field error lists (in `Meta.fields` order), or
  the singleton of the first failing cross-field check.

Framework fields with no bearing on the verified claims (patient,
department, appointment type, priority, free-text fields, reminder flags,
the generated `APT<year><seq>` display id) are omitted from the `Booking`
record; none of the modelled control flow reads them.
-/

namespace HospitalBooking

/-- The `Appointment.Status` text choices (`models.py`). -/
inductive Status where
  | scheduled
  | confirmed
  | inProgress
  | completed
  | cancelled
  | noShow
  | rescheduled
deriving DecidableEq, Repr, Fintype

/-- Rejection reasons produced by the validation and endpoint layers.
`capacityExceeded` is declared because the spec's taxonomy names it
(§4.1 check 5 / §7); the code never produces it (claim C7). -/
inductive Reason where
  | pastDateTime
  | outsideWorkingHours
  | notADoctor
  | resourceNotAccepting
  | invalidDuration
  | slotConflict
  | capacityExceeded
  | illegalTransition
  | cannotCancel
  | notFound
  | constraintViolation
deriving DecidableEq, Repr

/-- The `Doctor` profile fields read by the booking logic
(`doctors/models.py`): `is_accepting_patients` and `max_patients_per_day`. -/
structure DoctorProfile where
  accepting : Bool
  maxPerDay : Nat
deriving DecidableEq, Repr

/-- The doctor `User` as seen by `validate_doctor`: its id, its `role`
string, and the optional `doctor_profile` (`hasattr(value, 'doctor_profile')`
is `profile.isSome`). -/
structure User where
  id : Nat
  role : String
  profile : Option DoctorProfile
deriving DecidableEq, Repr

/-- A committed appointment row: the fields of `Appointment` that the
verified logic reads or writes. -/
structure Booking where
  doctor : User
  date : Nat
  time : Nat
  duration : Nat
  status : Status
  cancelledAt : Option Nat
  cancelledBy : Option Nat
  cancellationReason : Option String
deriving DecidableEq, Repr

/-- The creation payload of `AppointmentCreateSerializer` (the fields the
validation logic reads; the doctor FK is resolved to its `User`). -/
structure CreateReq where
  doctor : User
  date : Nat
  time : Nat
  duration : Nat
deriving DecidableEq, Repr

/-- `datetime.combine(date, time)` in minutes since the epoch. -/
def combine (d t : Nat) : Nat := d * 1440 + t

/-- A status counted by the store's conditional unique constraint and the
serializer conflict filter: `status__in=['scheduled', 'confirmed',
'in_progress']`. -/
def isActive : Status → Bool
  | .scheduled => true
  | .confirmed => true
  | .inProgress => true
  | _ => false

/-- The `(doctor, appointment_date, appointment_time)` triple of the
`unique_doctor_appointment_time` constraint. -/
def slotOf (b : Booking) : Nat × Nat × Nat := (b.doctor.id, b.date, b.time)

/-- `validate_appointment_date`: reject dates strictly before
`date.today()` (= `now / 1440`). -/
def dateErrors (now d : Nat) : List Reason :=
  if d < now / 1440 then [.pastDateTime] else []

/-- A working-hours window (start and end time of day, in minutes). -/
structure TimeWindow where
  start : Nat
  stop : Nat
deriving DecidableEq, Repr

/-- The window hardcoded in `validate_appointment_time` of both the create
and the update serializer: `time(9, 0)` to `time(17, 0)`. -/
def defaultWindow : TimeWindow := ⟨540, 1020⟩

/-- `validate_appointment_time` generalized over the window in force: with
no window the weekday is closed and every start time is rejected; with a
window `w` the source rejects exactly `value < w.start or value > w.stop`
(only the start time is inspected, never `start + duration`). -/
def timeErrorsWin (win : Option TimeWindow) (t : Nat) : List Reason :=
  match win with
  | none => [.outsideWorkingHours]
  | some w => if t < w.start || w.stop < t then [.outsideWorkingHours] else []

/-- `validate_doctor`: reject when `value.role != 'doctor'`, and when a
`doctor_profile` exists with `is_accepting_patients == False`. -/
def doctorErrors (u : User) : List Reason :=
  (if u.role ≠ "doctor" then [.notADoctor] else []) ++
    (match u.profile with
     | some p => if p.accepting then [] else [.resourceNotAccepting]
     | none => [])

/-- The `duration` model validators `MinValueValidator(15)` /
`MaxValueValidator(480)`, enforced at the serializer field stage. -/
def durationErrors (n : Nat) : List Reason :=
  if n < 15 || 480 < n then [.invalidDuration] else []

/-- The conflict filter of `AppointmentCreateSerializer.validate`:
an existing appointment of the same doctor at exactly the same
`(appointment_date, appointment_time)` with an active status. -/
def conflictExists (s : List Booking) (docId d t : Nat) : Bool :=
  s.any fun b =>
    b.doctor.id == docId && b.date == d && b.time == t && isActive b.status

/-- Field-stage errors of `AppointmentCreateSerializer`, in `Meta.fields`
order (doctor, appointment_date, appointment_time, duration), valued over
an arbitrary working window. -/
def fieldErrorsWin (win : Option TimeWindow) (now : Nat) (req : CreateReq) :
    List Reason :=
  doctorErrors req.doctor ++ dateErrors now req.date ++
    timeErrorsWin win req.time ++ durationErrors req.duration

/-- The full `run_validation` of `AppointmentCreateSerializer` over an
arbitrary working window: field stage first, then the cross-field
`validate` (past-datetime check, then exact-slot conflict check), each
cross-field failure raising alone. -/
def validateCore (win : Option TimeWindow) (now : Nat) (s : List Booking)
    (req : CreateReq) : Except (List Reason) Unit :=
  let fe := fieldErrorsWin win now req
  if fe = [] then
    if combine req.date req.time < now then .error [.pastDateTime]
    else if conflictExists s req.doctor.id req.date req.time then
      .error [.slotConflict]
    else .ok ()
  else .error fe

/-- `AppointmentCreateSerializer.run_validation` as the source writes it:
the working window is the hardcoded 09:00–17:00 of
`validate_appointment_time`. -/
def validate (now : Nat) (s : List Booking) (req : CreateReq) :
    Except (List Reason) Unit :=
  validateCore (some defaultWindow) now s req

/-- `Appointment.clean` (`models.py`): reject when
`datetime.combine(appointment_date, appointment_time) < datetime.now()`,
and when the doctor has a profile with `is_accepting_patients == False`.
Runs on every `save()` because `Appointment.save` calls `self.clean()`. -/
def cleanErrors (now : Nat) (b : Booking) : List Reason :=
  (if combine b.date b.time < now then [.pastDateTime] else []) ++
    (match b.doctor.profile with
     | some p => if p.accepting then [] else [.resourceNotAccepting]
     | none => [])

/-- The row inserted on a successful creation: `status` defaults to
`scheduled`, the cancellation fields to null. -/
def newBooking (req : CreateReq) : Booking :=
  { doctor := req.doctor, date := req.date, time := req.time,
    duration := req.duration, status := .scheduled,
    cancelledAt := none, cancelledBy := none, cancellationReason := none }

/-- Creation endpoint: serializer validation, then `Model.save` (which
runs `clean`), then the insert under the store's conditional unique
constraint `unique_doctor_appointment_time` (a violation surfaces as a
constraint error instead of a committed row). -/
def createOp (now : Nat) (req : CreateReq) (s : List Booking) :
    Except (List Reason) (List Booking) :=
  match validate now s req with
  | .error es => .error es
  | .ok _ =>
      let b := newBooking req
      let ce := cleanErrors now b
      if ce = [] then
        if conflictExists s req.doctor.id req.date req.time then
          .error [.constraintViolation]
        else .ok (s ++ [b])
      else .error ce

/-- The transition table shared verbatim by
`AppointmentUpdateSerializer.validate_status` and
`AppointmentStatusUpdateSerializer.validate_status`. -/
def allowedTransitions : Status → List Status
  | .scheduled => [.confirmed, .cancelled, .noShow]
  | .confirmed => [.inProgress, .cancelled, .noShow]
  | .inProgress => [.completed, .cancelled]
  | .completed => []
  | .cancelled => []
  | .noShow => []
  | .rescheduled => []

/-- `validate_status`: the check fires only when
`value != current_status and value not in allowed_transitions[current]`,
so a self-transition always passes. -/
def transitionOK (current target : Status) : Bool :=
  target == current || (allowedTransitions current).contains target

/-- `AppointmentStatusUpdateSerializer.update` followed by the generic
`ModelSerializer.update` setattr loop: when the new status is `cancelled`
the serializer stamps `cancelled_at = now`, `cancelled_by = request.user`
and `cancellation_reason = validated_data.get('cancellation_reason', '')`;
then every provided payload field (`status`, `cancellation_reason`) is
written onto the instance. -/
def applyStatusUpdate (now user : Nat) (target : Option Status)
    (reason : Option String) (b : Booking) : Booking :=
  let b1 :=
    if target == some Status.cancelled then
      { b with cancelledAt := some now, cancelledBy := some user,
               cancellationReason := some (reason.getD "") }
    else b
  let b2 := match target with
    | some t => { b1 with status := t }
    | none => b1
  match reason with
  | some r => { b2 with cancellationReason := some r }
  | none => b2

/-- On a partial payload `validate_status` runs only when a `status` key
is supplied. -/
def legalTarget (cur : Status) (target : Option Status) : Bool :=
  match target with
  | some t => transitionOK cur t
  | none => true

/-- `AppointmentStatusUpdateView.patch` (PATCH, partial payload of
`status` and `cancellation_reason`): fetch the row, run `validate_status`
when a status is supplied, apply the update, and `save()` (which re-runs
`clean`). -/
def statusUpdateOp (now user i : Nat) (target : Option Status)
    (reason : Option String) (s : List Booking) :
    Except (List Reason) (List Booking) :=
  match s[i]? with
  | none => .error [.notFound]
  | some b =>
      if legalTarget b.status target then
        let bNew := applyStatusUpdate now user target reason b
        let ce := cleanErrors now bNew
        if ce = [] then .ok (s.set i bNew) else .error ce
      else .error [.illegalTransition]

/-- `AppointmentCancelView.patch`: refuse when the current status is
`cancelled` or `completed`; otherwise set `status = 'cancelled'`, stamp
`cancelled_at`/`cancelled_by`/`cancellation_reason` and `save()` (which
re-runs `clean`). -/
def cancelOp (now user i : Nat) (reason : String) (s : List Booking) :
    Except (List Reason) (List Booking) :=
  match s[i]? with
  | none => .error [.notFound]
  | some b =>
      if b.status == .cancelled || b.status == .completed then
        .error [.cannotCancel]
      else
        let bNew := { b with status := .cancelled, cancelledAt := some now,
                             cancelledBy := some user,
                             cancellationReason := some reason }
        let ce := cleanErrors now bNew
        if ce = [] then .ok (s.set i bNew) else .error ce

/-- `AppointmentDetailView.delete`: no status guard at all — set
`status = 'cancelled'`, stamp the cancellation fields with reason
`"Deleted by user"`, and `save()` (which re-runs `clean`). -/
def deleteOp (now user i : Nat) (s : List Booking) :
    Except (List Reason) (List Booking) :=
  match s[i]? with
  | none => .error [.notFound]
  | some b =>
      let bNew := { b with status := .cancelled, cancelledAt := some now,
                           cancelledBy := some user,
                           cancellationReason := some "Deleted by user" }
      let ce := cleanErrors now bNew
      if ce = [] then .ok (s.set i bNew) else .error ce

/-- Spec-modelled booking policy. Modelled from the spec: §3's
`BookingPolicy.working_hours_default`, "fallback window (e.g., 09:00–17:00)
used when a resource has no explicit calendar"; the source only ever uses
the hardcoded 09:00–17:00 window of the serializers. -/
structure BookingPolicy where
  workingHoursDefault : Option TimeWindow

/-- Spec-modelled resource calendar. Modelled from the spec: §3's
`ResourceCalendar.working_windows`, a "mapping from weekday (0–6) to
(start_time, end_time) intervals"; the matching `DoctorAvailability`
model (per-doctor `day_of_week`/`start_time`/`end_time` rows) appears only
in `tests/test_business_logic.py` and is absent from the source tree. -/
structure ResourceCalendar where
  windows : Nat → Option TimeWindow

/-- Spec-modelled window lookup. Modelled from the spec: §4.1 check 3,
"if no window is configured for that weekday, fall back to
`policy.working_hours_default`"; absence of both means the resource is
unavailable that day. -/
def windowFor (cal : ResourceCalendar) (pol : BookingPolicy) (d : Nat) :
    Option TimeWindow :=
  match cal.windows (d % 7) with
  | some w => some w
  | none => pol.workingHoursDefault

/-- The creation validation generalized to per-weekday working windows
(spec §4.1); instantiated with an empty calendar and the 09:00–17:00
policy default it is exactly the source's `validate`. -/
def validateW (cal : ResourceCalendar) (pol : BookingPolicy) (now : Nat)
    (s : List Booking) (req : CreateReq) : Except (List Reason) Unit :=
  validateCore (windowFor cal pol req.date) now s req

/-- The calendar of the source: no per-weekday rows. -/
def sourceCalendar : ResourceCalendar := ⟨fun _ => none⟩

/-- The policy of the source: the serializers' hardcoded 09:00–17:00. -/
def sourcePolicy : BookingPolicy := ⟨some defaultWindow⟩

/-- A start time outside the governing window (no window means every
start time is outside). -/
def outsideWindow (win : Option TimeWindow) (t : Nat) : Prop :=
  match win with
  | none => True
  | some w => t < w.start ∨ w.stop < t

instance (win : Option TimeWindow) (t : Nat) : Decidable (outsideWindow win t) := by
  unfold outsideWindow
  match win with
  | none => exact inferInstanceAs (Decidable True)
  | some w => exact inferInstanceAs (Decidable (_ ∨ _))

/-- `Doctor.get_current_patient_count` (`doctors/models.py`): the number
of this doctor's appointments dated today with status `scheduled` or
`in_progress`. -/
def getCurrentPatientCount (s : List Booking) (docId today : Nat) : Nat :=
  (s.filter fun b =>
    b.doctor.id == docId && b.date == today &&
      (b.status == Status.scheduled || b.status == Status.inProgress)).length

/-- `Doctor.can_accept_more_patients_today`:
`get_current_patient_count() < max_patients_per_day`. -/
def canAcceptMorePatientsToday (s : List Booking) (docId today maxPerDay : Nat) :
    Bool :=
  getCurrentPatientCount s docId today < maxPerDay

/-- The candidate start times generated by `DoctorAvailabilityView.get` /
`DoctorScheduleView.get`: from 09:00, stepping 30 minutes, while strictly
before 17:00 — sixteen slots 540, 570, …, 990. -/
def candidateTimes : List Nat := (List.range 16).map fun k => 540 + 30 * k

/-- The `available_slots` list of both doctor views: a candidate time is
kept when no appointment of the doctor on that date with status in
`['scheduled', 'confirmed', 'in_progress']` has exactly that start time. -/
def availableSlots (s : List Booking) (docId d : Nat) : List Nat :=
  candidateTimes.filter fun t => !conflictExists s docId d t

/-- The partial update payload of `AppointmentUpdateSerializer` (the
fields its validation logic reads; `patient`, `department` and the
free-text fields are accepted without validation). -/
structure UpdatePayload where
  doctor : Option User
  date : Option Nat
  time : Option Nat
  status : Option Status
  duration : Option Nat
deriving DecidableEq, Repr

/-- The conflict filter of `AppointmentUpdateSerializer.validate`, with
the serializer's `.exclude(id=self.instance.id)` rendered as skipping the
row at the instance's position. -/
def conflictExistsExcluding (s : List Booking) (selfIdx docId d t : Nat) :
    Bool :=
  s.enum.any fun p =>
    p.1 ≠ selfIdx && p.2.doctor.id == docId && p.2.date == d &&
      p.2.time == t && isActive p.2.status

/-- A validator applied only when the payload carries the field. -/
def optErrors {a : Type} (f : a → List Reason) : Option a → List Reason
  | some v => f v
  | none => []

/-- Field-stage errors of `AppointmentUpdateSerializer` on a partial
payload: each validator runs only when its field is present; the `doctor`
field has no validator on this serializer. -/
def updateFieldErrors (now : Nat) (b : Booking) (p : UpdatePayload) :
    List Reason :=
  optErrors (dateErrors now) p.date ++
    optErrors (timeErrorsWin (some defaultWindow)) p.time ++
    optErrors (fun t => if transitionOK b.status t then [] else
      [.illegalTransition]) p.status ++
    optErrors durationErrors p.duration

/-- `AppointmentUpdateSerializer.run_validation` against instance `i`:
field stage, then the cross-field `validate(data)`, whose conflict check
runs only when the payload contains `doctor`, `appointment_date` and
`appointment_time` all three. -/
def updateValidate (now : Nat) (s : List Booking) (i : Nat)
    (p : UpdatePayload) : Except (List Reason) Unit :=
  match s[i]? with
  | none => .error [.notFound]
  | some b =>
      let fe := updateFieldErrors now b p
      if fe = [] then
        match p.doctor, p.date, p.time with
        | some u, some d, some t =>
            if conflictExistsExcluding s i u.id d t then
              .error [.slotConflict]
            else .ok ()
        | _, _, _ => .ok ()
      else .error fe

/-- States of the store reachable from the empty table by the creation
endpoint (`validate` + commit) and the status-changing endpoints. -/
inductive Reachable : List Booking → Prop where
  | init : Reachable []
  | create (s : List Booking) (now : Nat) (req : CreateReq)
      (s' : List Booking) : Reachable s → createOp now req s = .ok s' →
      Reachable s'
  | statusUpd (s : List Booking) (now user i : Nat) (target : Option Status)
      (reason : Option String) (s' : List Booking) : Reachable s →
      statusUpdateOp now user i target reason s = .ok s' → Reachable s'
  | cancel (s : List Booking) (now user i : Nat) (reason : String)
      (s' : List Booking) : Reachable s →
      cancelOp now user i reason s = .ok s' → Reachable s'
  | del (s : List Booking) (now user i : Nat) (s' : List Booking) :
      Reachable s → deleteOp now user i s = .ok s' → Reachable s'

/-- The double-booking invariant: among rows with an active status, the
`(doctor, date, time)` slot determines the row — the property the
`unique_doctor_appointment_time` constraint guarantees. -/
def ActiveUnique (s : List Booking) : Prop :=
  ∀ i j : Fin s.length, i ≠ j → isActive (s.get i).status →
    isActive (s.get j).status → slotOf (s.get i) ≠ slotOf (s.get j)

instance (s : List Booking) : Decidable (ActiveUnique s) := by
  unfold ActiveUnique
  infer_instance

/-- The rejection reasons carried by a validation result (empty on
success). -/
def errorsOf {α : Type} : Except (List Reason) α → List Reason
  | .error es => es
  | .ok _ => []

/-! ## Helper lemmas -/

instance {e a : Type} [DecidableEq e] [DecidableEq a] :
    DecidableEq (Except e a) := fun x y =>
  match x, y with
  | .error u, .error v =>
      if h : u = v then .isTrue (by rw [h]) else .isFalse (by simp [h])
  | .error _, .ok _ => .isFalse (by simp)
  | .ok _, .error _ => .isFalse (by simp)
  | .ok u, .ok v =>
      if h : u = v then .isTrue (by rw [h]) else .isFalse (by simp [h])

theorem transitionOK_iff (cur tgt : Status) :
    transitionOK cur tgt = true ↔ tgt = cur ∨ tgt ∈ allowedTransitions cur := by
  simp [transitionOK, List.elem_iff]

theorem applyStatusUpdate_doctor (now user : Nat) (target : Option Status)
    (reason : Option String) (b : Booking) :
    (applyStatusUpdate now user target reason b).doctor = b.doctor := by
  cases target <;> cases reason <;>
    simp only [applyStatusUpdate] <;> split <;> rfl

theorem applyStatusUpdate_date (now user : Nat) (target : Option Status)
    (reason : Option String) (b : Booking) :
    (applyStatusUpdate now user target reason b).date = b.date := by
  cases target <;> cases reason <;>
    simp only [applyStatusUpdate] <;> split <;> rfl

theorem applyStatusUpdate_time (now user : Nat) (target : Option Status)
    (reason : Option String) (b : Booking) :
    (applyStatusUpdate now user target reason b).time = b.time := by
  cases target <;> cases reason <;>
    simp only [applyStatusUpdate] <;> split <;> rfl

theorem applyStatusUpdate_status (now user : Nat) (t : Status)
    (reason : Option String) (b : Booking) :
    (applyStatusUpdate now user (some t) reason b).status = t := by
  cases reason <;> by_cases ht : t = Status.cancelled <;>
    simp [applyStatusUpdate, ht]

theorem cleanErrors_congr (now : Nat) (b1 b2 : Booking)
    (hdoc : b1.doctor = b2.doctor) (hd : b1.date = b2.date)
    (ht : b1.time = b2.time) :
    cleanErrors now b1 = cleanErrors now b2 := by
  simp [cleanErrors, hdoc, hd, ht]

theorem cleanErrors_applyStatusUpdate (now now' user : Nat)
    (target : Option Status) (reason : Option String) (b : Booking) :
    cleanErrors now' (applyStatusUpdate now user target reason b)
      = cleanErrors now' b :=
  cleanErrors_congr now' _ b (applyStatusUpdate_doctor ..)
    (applyStatusUpdate_date ..) (applyStatusUpdate_time ..)

/-! ## C2: legality of status transitions -/

/-- C2: for every current status and target, the status-update operation
succeeds exactly when the target is in the transition table's allowed set
for the current status or equals it (the no-op self-transition), in which
case the stored status becomes the target; otherwise it fails with
`IllegalTransition`. (The save-time `clean` re-validation is assumed to
pass, i.e. the appointment is not past-dated and its doctor is accepting —
`cleanErrors now b = []`.) -/
theorem transition_legal_iff_table (s : List Booking) (i : Nat) (b : Booking)
    (now user : Nat) (tgt : Status) (hb : s[i]? = some b)
    (hclean : cleanErrors now b = []) :
    ((∃ s', statusUpdateOp now user i (some tgt) none s = .ok s')
        ↔ tgt = b.status ∨ tgt ∈ allowedTransitions b.status)
      ∧ (∀ s', statusUpdateOp now user i (some tgt) none s = .ok s' →
          s'[i]?.map Booking.status = some tgt)
      ∧ (¬(tgt = b.status ∨ tgt ∈ allowedTransitions b.status) →
          statusUpdateOp now user i (some tgt) none s = .error [.illegalTransition]) := by
  have hlen : i < s.length := (List.getElem?_eq_some.mp hb).1
  have hcl : cleanErrors now (applyStatusUpdate now user (some tgt) none b) = [] := by
    rw [cleanErrors_applyStatusUpdate]
    exact hclean
  by_cases hok : transitionOK b.status tgt = true
  · have hlegal := (transitionOK_iff b.status tgt).mp hok
    have hrun : statusUpdateOp now user i (some tgt) none s
        = .ok (s.set i (applyStatusUpdate now user (some tgt) none b)) := by
      simp [statusUpdateOp, legalTarget, hb, hok, hcl]
    refine ⟨⟨fun _ => hlegal, fun _ => ⟨_, hrun⟩⟩, ?_, fun h => absurd hlegal h⟩
    intro s' hs'
    rw [hrun] at hs'
    cases hs'
    rw [List.getElem?_set_eq_of_lt _ hlen]
    simp [applyStatusUpdate_status]
  · have hlegal := fun h => hok ((transitionOK_iff b.status tgt).mpr h)
    have hrun : statusUpdateOp now user i (some tgt) none s
        = .error [.illegalTransition] := by
      simp [statusUpdateOp, legalTarget, hb, hok]
    refine ⟨⟨fun ⟨s', hs'⟩ => ?_, fun h => absurd h hlegal⟩, ?_, fun _ => hrun⟩
    · rw [hrun] at hs'
      cases hs'
    · intro s' hs'
      rw [hrun] at hs'
      cases hs'

/-- C2 witness: a `scheduled → confirmed` transition succeeds; a
`completed → confirmed` attempt fails with `IllegalTransition`. -/
theorem transition_legal_iff_table_witness :
    (∃ s', statusUpdateOp 100 7 0 (some .confirmed) none
        [⟨⟨1, "doctor", some ⟨true, 20⟩⟩, 5, 600, 30, .scheduled, none, none, none⟩]
      = .ok s')
    ∧ (statusUpdateOp 100 7 0 (some .confirmed) none
        [⟨⟨1, "doctor", some ⟨true, 20⟩⟩, 5, 600, 30, .completed, none, none, none⟩]
      = .error [.illegalTransition]) :=
  ⟨(transition_legal_iff_table
      [⟨⟨1, "doctor", some ⟨true, 20⟩⟩, 5, 600, 30, .scheduled, none, none, none⟩]
      0 ⟨⟨1, "doctor", some ⟨true, 20⟩⟩, 5, 600, 30, .scheduled, none, none, none⟩
      100 7 .confirmed (by decide) (by decide)).1.mpr (by decide),
   (transition_legal_iff_table
      [⟨⟨1, "doctor", some ⟨true, 20⟩⟩, 5, 600, 30, .completed, none, none, none⟩]
      0 ⟨⟨1, "doctor", some ⟨true, 20⟩⟩, 5, 600, 30, .completed, none, none, none⟩
      100 7 .confirmed (by decide) (by decide)).2.2 (by decide)⟩

/-! ## C8: cancellation stamps -/

theorem applyStatusUpdate_cancelledAt_of_ne (now user : Nat)
    (target : Option Status) (reason : Option String) (b : Booking)
    (h : target ≠ some Status.cancelled) :
    (applyStatusUpdate now user target reason b).cancelledAt = b.cancelledAt := by
  cases target <;> cases reason <;> simp_all [applyStatusUpdate]

theorem applyStatusUpdate_cancelledBy_of_ne (now user : Nat)
    (target : Option Status) (reason : Option String) (b : Booking)
    (h : target ≠ some Status.cancelled) :
    (applyStatusUpdate now user target reason b).cancelledBy = b.cancelledBy := by
  cases target <;> cases reason <;> simp_all [applyStatusUpdate]

/-- C8 counterexample: the claim's "cancellation fields are populated only
when the status becomes `cancelled`" is false — `cancellation_reason` is a
writable field of the status-update serializer, so an update that moves a
`scheduled` booking to `confirmed` while carrying
`cancellation_reason = "x"` stores the reason even though the status never
becomes `cancelled` (and `confirmed ≠ cancelled`). -/
theorem cancel_stamps_fields_cex :
    statusUpdateOp 100 7 0 (some .confirmed) (some "x")
        [⟨⟨1, "doctor", some ⟨true, 20⟩⟩, 5, 600, 30, .scheduled, none, none, none⟩]
      = .ok [⟨⟨1, "doctor", some ⟨true, 20⟩⟩, 5, 600, 30, .confirmed,
              none, none, some "x"⟩]
    ∧ Status.confirmed ≠ Status.cancelled := by
  constructor
  · decide
  · decide

/-- C8 (amended): transitioning any non-terminal booking to `cancelled`
with reason `x` supplied by user `u` stores `cancelled_at = now`,
`cancellation_reason = x` and `cancelled_by = u`; and `cancelled_at` and
`cancelled_by` are populated only when the status becomes `cancelled` —
but `cancellation_reason`, being a writable payload field, can be stored
by a status update whose target is not `cancelled`. (The save-time `clean`
re-validation is assumed to pass.) -/
theorem cancel_stamps_fields (s : List Booking) (i : Nat) (b : Booking)
    (now user : Nat) (x : String) (hb : s[i]? = some b)
    (hclean : cleanErrors now b = []) (hnt : isActive b.status = true) :
    statusUpdateOp now user i (some .cancelled) (some x) s
      = .ok (s.set i { b with status := .cancelled, cancelledAt := some now,
                              cancelledBy := some user,
                              cancellationReason := some x })
    ∧ (∀ (target : Option Status) (reason : Option String) (s' : List Booking),
        target ≠ some Status.cancelled →
        statusUpdateOp now user i target reason s = .ok s' →
        s'[i]?.map Booking.cancelledAt = some b.cancelledAt
          ∧ s'[i]?.map Booking.cancelledBy = some b.cancelledBy) := by
  have hlen : i < s.length := (List.getElem?_eq_some.mp hb).1
  constructor
  · have hok : transitionOK b.status Status.cancelled = true := by
      revert hnt
      cases b.status <;> decide
    have happ : applyStatusUpdate now user (some .cancelled) (some x) b
        = { b with status := .cancelled, cancelledAt := some now,
                   cancelledBy := some user, cancellationReason := some x } := by
      simp [applyStatusUpdate]
    have hcl : cleanErrors now (applyStatusUpdate now user (some .cancelled) (some x) b) = [] := by
      rw [cleanErrors_applyStatusUpdate]
      exact hclean
    rw [happ] at hcl
    simp [statusUpdateOp, legalTarget, hb, hok, hcl, happ]
  · intro target reason s' htgt hs'
    have hcl : cleanErrors now (applyStatusUpdate now user target reason b)
        = cleanErrors now b := cleanErrors_applyStatusUpdate ..
    have hs'' : s' = s.set i (applyStatusUpdate now user target reason b) := by
      by_cases hl : legalTarget b.status target = true
      · simp only [statusUpdateOp, hb, hl, if_true, hcl, hclean,
          Except.ok.injEq] at hs'
        exact hs'.symm
      · simp only [statusUpdateOp, hb] at hs'
        rw [if_neg hl] at hs'
        cases hs'
    subst hs''
    rw [List.getElem?_set_eq_of_lt _ hlen]
    simp [applyStatusUpdate_cancelledAt_of_ne now user target reason b htgt,
          applyStatusUpdate_cancelledBy_of_ne now user target reason b htgt]

/-- C8 witness: cancelling a `scheduled` booking with reason `"x"` by user
`7` stamps all three cancellation fields; a later-dated `confirmed` target
leaves `cancelled_at`/`cancelled_by` untouched. -/
theorem cancel_stamps_fields_witness :
    statusUpdateOp 100 7 0 (some .cancelled) (some "x")
        [⟨⟨1, "doctor", some ⟨true, 20⟩⟩, 5, 600, 30, .scheduled, none, none, none⟩]
      = .ok [⟨⟨1, "doctor", some ⟨true, 20⟩⟩, 5, 600, 30, .cancelled,
              some 100, some 7, some "x"⟩] := by
  have h := (cancel_stamps_fields
    [⟨⟨1, "doctor", some ⟨true, 20⟩⟩, 5, 600, 30, .scheduled, none, none, none⟩]
    0 ⟨⟨1, "doctor", some ⟨true, 20⟩⟩, 5, 600, 30, .scheduled, none, none, none⟩
    100 7 "x" (by decide) (by decide) (by decide)).1
  simpa using h

/-! ## C6: immutability of terminal statuses -/

/-- C6 counterexample: `completed` is terminal (no outgoing transitions in
the table), yet the delete endpoint turns a future-dated `completed`
booking into a `cancelled` one — an operation of the system changes a
terminal booking's status. -/
theorem terminal_immutable_cex :
    allowedTransitions .completed = []
    ∧ deleteOp 100 7 0
        [⟨⟨1, "doctor", some ⟨true, 20⟩⟩, 5, 600, 30, .completed, none, none, none⟩]
      = .ok [⟨⟨1, "doctor", some ⟨true, 20⟩⟩, 5, 600, 30, .cancelled,
              some 100, some 7, some "Deleted by user"⟩] := by
  constructor
  · rfl
  · decide

/-- C6 (amended): the status-update serializer never changes the status of
a terminal booking; the cancel endpoint refuses bookings whose status is
`cancelled` or `completed`; but the cancel endpoint still cancels
`no_show` and `rescheduled` bookings, and the delete endpoint sets the
status of any booking it successfully processes to `cancelled`, whatever
it was — so terminal statuses other than `cancelled` can still be changed
to `cancelled` through those two endpoints. -/
theorem terminal_status_amended :
    (∀ (s : List Booking) (i : Nat) (b : Booking) (now user : Nat)
        (target : Option Status) (reason : Option String) (s' : List Booking),
      s[i]? = some b → isActive b.status = false →
      statusUpdateOp now user i target reason s = .ok s' →
      s'[i]?.map Booking.status = some b.status)
    ∧ (∀ (s : List Booking) (i : Nat) (b : Booking) (now user : Nat) (r : String),
      s[i]? = some b → (b.status = .cancelled ∨ b.status = .completed) →
      cancelOp now user i r s = .error [.cannotCancel])
    ∧ (∀ (s : List Booking) (i now user : Nat) (r : String) (s' : List Booking),
      cancelOp now user i r s = .ok s' →
      s'[i]?.map Booking.status = some Status.cancelled)
    ∧ (∀ (s : List Booking) (i now user : Nat) (s' : List Booking),
      deleteOp now user i s = .ok s' →
      s'[i]?.map Booking.status = some Status.cancelled) := by
  refine ⟨?_, ?_, ?_, ?_⟩
  · intro s i b now user target reason s' hb hterm hs'
    have hlen : i < s.length := (List.getElem?_eq_some.mp hb).1
    have hleg : legalTarget b.status target = true := by
      by_cases hl : legalTarget b.status target = true
      · exact hl
      · simp only [statusUpdateOp, hb] at hs'
        rw [if_neg hl] at hs'
        cases hs'
    have hs'' : s' = s.set i (applyStatusUpdate now user target reason b) := by
      simp only [statusUpdateOp, hb, hleg, if_true] at hs'
      by_cases hcl : cleanErrors now (applyStatusUpdate now user target reason b) = []
      · rw [if_pos hcl] at hs'
        cases hs'
        rfl
      · rw [if_neg hcl] at hs'
        cases hs'
    have hstat : (applyStatusUpdate now user target reason b).status = b.status := by
      match target with
      | none =>
          cases reason <;> simp [applyStatusUpdate]
      | some t =>
          have : t = b.status := by
            simp only [legalTarget, transitionOK] at hleg
            rcases Bool.or_eq_true .. |>.mp hleg with h | h
            · exact beq_iff_eq.mp h
            · exfalso
              have hmem := List.elem_iff.mp h
              have hempty : allowedTransitions b.status = [] := by
                revert hterm
                cases b.status <;> decide
              rw [hempty] at hmem
              exact List.not_mem_nil t hmem
          rw [applyStatusUpdate_status, this]
    subst hs''
    rw [List.getElem?_set_eq_of_lt _ hlen]
    simp [hstat]
  · intro s i b now user r hb hterm
    have hcond : (b.status == Status.cancelled || b.status == Status.completed) = true := by
      rcases hterm with h | h <;> simp [h]
    simp [cancelOp, hb, hcond]
  · intro s i now user r s' hs'
    match hb : s[i]? with
    | none => simp [cancelOp, hb] at hs'
    | some b =>
        have hlen : i < s.length := (List.getElem?_eq_some.mp hb).1
        simp only [cancelOp, hb] at hs'
        by_cases hcond : (b.status == Status.cancelled || b.status == Status.completed) = true
        · rw [if_pos hcond] at hs'
          cases hs'
        · rw [if_neg hcond] at hs'
          by_cases hcl : cleanErrors now
              { b with status := .cancelled, cancelledAt := some now,
                       cancelledBy := some user, cancellationReason := some r } = []
          · rw [if_pos hcl] at hs'
            cases hs'
            rw [List.getElem?_set_eq_of_lt _ hlen]
            rfl
          · rw [if_neg hcl] at hs'
            cases hs'
  · intro s i now user s' hs'
    match hb : s[i]? with
    | none => simp [deleteOp, hb] at hs'
    | some b =>
        have hlen : i < s.length := (List.getElem?_eq_some.mp hb).1
        simp only [deleteOp, hb] at hs'
        by_cases hcl : cleanErrors now
            { b with status := .cancelled, cancelledAt := some now,
                     cancelledBy := some user,
                     cancellationReason := some "Deleted by user" } = []
        · rw [if_pos hcl] at hs'
          cases hs'
          rw [List.getElem?_set_eq_of_lt _ hlen]
          rfl
        · rw [if_neg hcl] at hs'
          cases hs'

/-- C6 witness: a self-transition leaves a `completed` booking
`completed`; the cancel endpoint refuses a `completed` booking; and it
cancels a `no_show` one. -/
theorem terminal_status_amended_witness :
    ([⟨⟨1, "doctor", some ⟨true, 20⟩⟩, 5, 600, 30, .completed, none, none, none⟩] :
        List Booking)[0]?.map Booking.status = some Status.completed
    ∧ cancelOp 100 7 0 "r"
        [⟨⟨1, "doctor", some ⟨true, 20⟩⟩, 5, 600, 30, .completed, none, none, none⟩]
      = .error [.cannotCancel]
    ∧ ([⟨⟨1, "doctor", some ⟨true, 20⟩⟩, 5, 600, 30, .cancelled,
          some 100, some 7, some "r"⟩] :
        List Booking)[0]?.map Booking.status = some Status.cancelled :=
  ⟨terminal_status_amended.1
      [⟨⟨1, "doctor", some ⟨true, 20⟩⟩, 5, 600, 30, .completed, none, none, none⟩]
      0 ⟨⟨1, "doctor", some ⟨true, 20⟩⟩, 5, 600, 30, .completed, none, none, none⟩
      100 7 (some .completed) none
      [⟨⟨1, "doctor", some ⟨true, 20⟩⟩, 5, 600, 30, .completed, none, none, none⟩]
      (by decide) (by decide) (by decide),
   terminal_status_amended.2.1
      [⟨⟨1, "doctor", some ⟨true, 20⟩⟩, 5, 600, 30, .completed, none, none, none⟩]
      0 ⟨⟨1, "doctor", some ⟨true, 20⟩⟩, 5, 600, 30, .completed, none, none, none⟩
      100 7 "r" (by decide) (by decide),
   terminal_status_amended.2.2.1
      [⟨⟨1, "doctor", some ⟨true, 20⟩⟩, 5, 600, 30, .noShow, none, none, none⟩]
      0 100 7 "r"
      [⟨⟨1, "doctor", some ⟨true, 20⟩⟩, 5, 600, 30, .cancelled,
        some 100, some 7, some "r"⟩]
      (by decide)⟩

/-! ## Membership lemmas for the field-stage error lists -/

theorem owh_not_mem_dateErrors (now d : Nat) :
    Reason.outsideWorkingHours ∉ dateErrors now d := by
  unfold dateErrors
  split <;> simp

theorem owh_not_mem_doctorErrors (u : User) :
    Reason.outsideWorkingHours ∉ doctorErrors u := by
  unfold doctorErrors
  cases u.profile <;> split_ifs <;> simp

theorem owh_not_mem_durationErrors (n : Nat) :
    Reason.outsideWorkingHours ∉ durationErrors n := by
  unfold durationErrors
  split <;> simp

theorem owh_mem_timeErrorsWin (win : Option TimeWindow) (t : Nat) :
    Reason.outsideWorkingHours ∈ timeErrorsWin win t ↔ outsideWindow win t := by
  cases win with
  | none => simp [timeErrorsWin, outsideWindow]
  | some w =>
      simp only [timeErrorsWin, outsideWindow]
      by_cases h : (t < w.start || w.stop < t) = true
      · rw [if_pos h]
        simp only [Bool.or_eq_true, decide_eq_true_eq] at h
        simp [h]
      · rw [if_neg h]
        simp only [Bool.or_eq_true, decide_eq_true_eq] at h
        simp [h]

theorem dateErrors_eq_nil (now d : Nat) (h : ¬ d < now / 1440) :
    dateErrors now d = [] := by
  simp [dateErrors, h]

theorem timeErrorsWin_eq_nil (w : TimeWindow) (t : Nat)
    (h1 : w.start ≤ t) (h2 : t ≤ w.stop) :
    timeErrorsWin (some w) t = [] := by
  have : ¬ (t < w.start || w.stop < t) = true := by
    simp only [Bool.or_eq_true, decide_eq_true_eq]
    omega
  simp [timeErrorsWin, this]

theorem durationErrors_eq_nil (n : Nat) (h1 : 15 ≤ n) (h2 : n ≤ 480) :
    durationErrors n = [] := by
  have : ¬ (n < 15 || 480 < n) = true := by
    simp only [Bool.or_eq_true, decide_eq_true_eq]
    omega
  simp [durationErrors, this]

theorem fieldErrorsWin_eq_nil (win : Option TimeWindow) (now : Nat)
    (req : CreateReq) (hdoc : doctorErrors req.doctor = [])
    (hdate : dateErrors now req.date = [])
    (htime : timeErrorsWin win req.time = [])
    (hdur : durationErrors req.duration = []) :
    fieldErrorsWin win now req = [] := by
  simp [fieldErrorsWin, hdoc, hdate, htime, hdur]

/-- The exact-slot conflict test, in propositional form. -/
theorem conflictExists_iff (s : List Booking) (docId d t : Nat) :
    conflictExists s docId d t = true
      ↔ ∃ b ∈ s, b.doctor.id = docId ∧ b.date = d ∧ b.time = t
          ∧ isActive b.status = true := by
  simp [conflictExists, List.any_eq_true, Bool.and_eq_true, beq_iff_eq,
    and_assoc]

/-! ## C4: working-hours enforcement checks only the start time -/

/-- C4: a booking request fails with `OutsideWorkingHours` exactly when its
start time lies outside the working window governing its date's weekday
(below the window's start or above its end; a weekday with no configured
window and no policy default rejects every start time); and, because only
the start time is checked, a request whose start time is inside the window
but whose `start + duration` runs past the window's end is still accepted
when every other check passes. The per-weekday windows and policy default
are spec-modelled (§3, §4.1); the source hardcodes the 09:00–17:00 default
window, i.e. `cal = sourceCalendar`, `pol = sourcePolicy`. -/
theorem working_hours_start_only :
    (∀ (cal : ResourceCalendar) (pol : BookingPolicy) (now : Nat)
        (s : List Booking) (req : CreateReq),
      Reason.outsideWorkingHours ∈ errorsOf (validateW cal pol now s req)
        ↔ outsideWindow (windowFor cal pol req.date) req.time)
    ∧ (∀ (cal : ResourceCalendar) (pol : BookingPolicy) (now : Nat)
        (s : List Booking) (req : CreateReq) (w : TimeWindow),
      windowFor cal pol req.date = some w →
      w.start ≤ req.time → req.time ≤ w.stop →
      w.stop < req.time + req.duration →
      req.time < 1440 →
      doctorErrors req.doctor = [] →
      15 ≤ req.duration → req.duration ≤ 480 →
      now ≤ combine req.date req.time →
      conflictExists s req.doctor.id req.date req.time = false →
      validateW cal pol now s req = .ok ()) := by
  constructor
  · intro cal pol now s req
    simp only [validateW, validateCore]
    by_cases hfe : fieldErrorsWin (windowFor cal pol req.date) now req = []
    · rw [if_pos hfe]
      constructor
      · intro hmem
        exfalso
        by_cases hp : combine req.date req.time < now
        · rw [if_pos hp] at hmem
          simp [errorsOf] at hmem
        · rw [if_neg hp] at hmem
          by_cases hcf : conflictExists s req.doctor.id req.date req.time = true
          · rw [if_pos hcf] at hmem
            simp [errorsOf] at hmem
          · rw [if_neg hcf] at hmem
            simp [errorsOf] at hmem
      · intro houts
        exfalso
        have hmem : Reason.outsideWorkingHours
            ∈ fieldErrorsWin (windowFor cal pol req.date) now req := by
          unfold fieldErrorsWin
          refine List.mem_append.mpr (Or.inl ?_)
          refine List.mem_append.mpr (Or.inr ?_)
          exact (owh_mem_timeErrorsWin _ _).mpr houts
        rw [hfe] at hmem
        exact List.not_mem_nil _ hmem
    · rw [if_neg hfe]
      show Reason.outsideWorkingHours
          ∈ fieldErrorsWin (windowFor cal pol req.date) now req ↔ _
      unfold fieldErrorsWin
      simp only [List.mem_append]
      rw [owh_mem_timeErrorsWin]
      have h1 := owh_not_mem_doctorErrors req.doctor
      have h2 := owh_not_mem_dateErrors now req.date
      have h3 := owh_not_mem_durationErrors req.duration
      tauto
  · intro cal pol now s req w hwin hs1 hs2 hover ht hdoc hd1 hd2 hfut hnoconf
    have hdate : dateErrors now req.date = [] := by
      apply dateErrors_eq_nil
      have : now ≤ req.date * 1440 + req.time := hfut
      omega
    have htime : timeErrorsWin (windowFor cal pol req.date) req.time = [] := by
      rw [hwin]
      exact timeErrorsWin_eq_nil w req.time hs1 hs2
    have hfe : fieldErrorsWin (windowFor cal pol req.date) now req = [] :=
      fieldErrorsWin_eq_nil _ _ _ hdoc hdate htime
        (durationErrors_eq_nil _ hd1 hd2)
    have hpast : ¬ combine req.date req.time < now := by
      unfold combine at hfut ⊢
      omega
    simp [validateW, validateCore, hfe, hpast, hnoconf]

/-- C4 witness: with the source's hardcoded 09:00–17:00 window, a start of
08:59 is rejected `OutsideWorkingHours` and a 16:40 start whose 2-hour
duration runs to 18:40 — past closing — is accepted; with no window and no
policy default every start time is rejected. -/
theorem working_hours_start_only_witness :
    Reason.outsideWorkingHours ∈ errorsOf (validateW sourceCalendar
      sourcePolicy 0 [] ⟨⟨1, "doctor", some ⟨true, 20⟩⟩, 20240, 539, 30⟩)
    ∧ validateW sourceCalendar sourcePolicy 0 []
        ⟨⟨1, "doctor", some ⟨true, 20⟩⟩, 20240, 1000, 120⟩ = .ok ()
    ∧ Reason.outsideWorkingHours ∈ errorsOf (validateW ⟨fun _ => none⟩
        ⟨none⟩ 0 [] ⟨⟨1, "doctor", some ⟨true, 20⟩⟩, 20240, 600, 30⟩) :=
  ⟨(working_hours_start_only.1 sourceCalendar sourcePolicy 0 [] _).mpr
      (by decide),
   working_hours_start_only.2 sourceCalendar sourcePolicy 0 [] _
      defaultWindow (by decide) (by decide) (by decide) (by decide)
      (by decide) (by decide) (by decide) (by decide) (by decide) (by decide),
   (working_hours_start_only.1 ⟨fun _ => none⟩ ⟨none⟩ 0 [] _).mpr
      (by decide)⟩

/-! ## C3: the past check compares full datetimes against now -/

/-- C3: with every other check passing (start time inside the hardcoded
window, doctor valid and accepting, duration in bounds, slot free), the
creation validation rejects with `PastDateTime` exactly when
`combine(date, start_time)` is earlier than the instant `now` — not merely
when the calendar day is earlier — and accepts otherwise. -/
theorem past_datetime_iff (now : Nat) (s : List Booking) (req : CreateReq)
    (ht1 : 540 ≤ req.time) (ht2 : req.time ≤ 1020)
    (hdoc : doctorErrors req.doctor = [])
    (hd1 : 15 ≤ req.duration) (hd2 : req.duration ≤ 480)
    (hnoconf : conflictExists s req.doctor.id req.date req.time = false) :
    (validate now s req = .error [.pastDateTime]
       ↔ combine req.date req.time < now)
    ∧ (now ≤ combine req.date req.time → validate now s req = .ok ()) := by
  have htime : timeErrorsWin (some defaultWindow) req.time = [] :=
    timeErrorsWin_eq_nil defaultWindow req.time ht1 ht2
  have hdur : durationErrors req.duration = [] :=
    durationErrors_eq_nil _ hd1 hd2
  by_cases hd : req.date < now / 1440
  · have hcomb : combine req.date req.time < now := by
      unfold combine
      omega
    have hfe : fieldErrorsWin (some defaultWindow) now req = [.pastDateTime] := by
      simp [fieldErrorsWin, hdoc, htime, hdur, dateErrors, hd]
    refine ⟨⟨fun _ => hcomb, fun _ => ?_⟩, fun h => absurd hcomb (by omega)⟩
    simp [validate, validateCore, hfe]
  · have hfe : fieldErrorsWin (some defaultWindow) now req = [] :=
      fieldErrorsWin_eq_nil _ _ _ hdoc (dateErrors_eq_nil _ _ hd) htime hdur
    by_cases hc : combine req.date req.time < now
    · refine ⟨⟨fun _ => hc, fun _ => ?_⟩, fun h => absurd hc (by omega)⟩
      simp [validate, validateCore, hfe, hc]
    · have hok : validate now s req = .ok () := by
        simp [validate, validateCore, hfe, hc, hnoconf]
      exact ⟨⟨fun h => by simp [hok] at h, fun h => absurd h hc⟩, fun _ => hok⟩

/-- C3 witness: with `now` = 10:00 on day 20240, a same-day request at
09:00 is rejected `PastDateTime` and a same-day request at 10:01 is
accepted. -/
theorem past_datetime_iff_witness :
    validate (20240 * 1440 + 600) []
        ⟨⟨1, "doctor", some ⟨true, 20⟩⟩, 20240, 540, 30⟩
      = .error [.pastDateTime]
    ∧ validate (20240 * 1440 + 600) []
        ⟨⟨1, "doctor", some ⟨true, 20⟩⟩, 20240, 601, 30⟩ = .ok () :=
  ⟨(past_datetime_iff (20240 * 1440 + 600) []
      ⟨⟨1, "doctor", some ⟨true, 20⟩⟩, 20240, 540, 30⟩
      (by decide) (by decide) (by decide) (by decide) (by decide)
      (by decide)).1.mpr (by decide),
   (past_datetime_iff (20240 * 1440 + 600) []
      ⟨⟨1, "doctor", some ⟨true, 20⟩⟩, 20240, 601, 30⟩
      (by decide) (by decide) (by decide) (by decide) (by decide)
      (by decide)).2 (by decide)⟩

/-! ## C5: the conflict check is exact-time, not interval overlap -/

/-- C5: with the earlier checks passing, creation validation fails with
`SlotConflict` exactly when an existing booking of the same doctor has the
very same `(date, start_time)` and an active status; consequently a
request whose duration interval overlaps existing active bookings at
different start times is not rejected by this check. -/
theorem slot_conflict_exact (now : Nat) (s : List Booking) (req : CreateReq)
    (ht1 : 540 ≤ req.time) (ht2 : req.time ≤ 1020)
    (hdoc : doctorErrors req.doctor = [])
    (hd1 : 15 ≤ req.duration) (hd2 : req.duration ≤ 480)
    (hfut : now ≤ combine req.date req.time) :
    (validate now s req = .error [.slotConflict]
       ↔ ∃ b ∈ s, b.doctor.id = req.doctor.id ∧ b.date = req.date
            ∧ b.time = req.time ∧ isActive b.status = true)
    ∧ ((∀ b ∈ s, isActive b.status = true → b.doctor.id = req.doctor.id →
          b.date = req.date → b.time ≠ req.time) →
        validate now s req = .ok ()) := by
  have hfe : fieldErrorsWin (some defaultWindow) now req = [] := by
    refine fieldErrorsWin_eq_nil _ _ _ hdoc (dateErrors_eq_nil _ _ ?_)
      (timeErrorsWin_eq_nil defaultWindow req.time ht1 ht2)
      (durationErrors_eq_nil _ hd1 hd2)
    unfold combine at hfut
    omega
  have hpast : ¬ combine req.date req.time < now := by omega
  constructor
  · by_cases hc : conflictExists s req.doctor.id req.date req.time = true
    · have := (conflictExists_iff s req.doctor.id req.date req.time).mp hc
      refine ⟨fun _ => this, fun _ => ?_⟩
      simp [validate, validateCore, hfe, hpast, hc]
    · have hnot := fun h =>
        hc ((conflictExists_iff s req.doctor.id req.date req.time).mpr h)
      have hok : validate now s req = .ok () := by
        simp only [Bool.not_eq_true] at hc
        simp [validate, validateCore, hfe, hpast, hc]
      exact ⟨fun h => by simp [hok] at h, fun h => absurd h hnot⟩
  · intro hdiff
    have hc : conflictExists s req.doctor.id req.date req.time = false := by
      rw [← Bool.not_eq_true]
      intro h
      rcases (conflictExists_iff s req.doctor.id req.date req.time).mp h with
        ⟨b, hbs, hid, hdt, htm, hact⟩
      exact hdiff b hbs hact hid hdt htm
    simp [validate, validateCore, hfe, hpast, hc]

/-- C5 witness: an existing active 10:00–11:00 booking does not block a
10:30 request (overlapping intervals, different start times), but an exact
10:00 request is rejected `SlotConflict`. -/
theorem slot_conflict_exact_witness :
    validate (20240 * 1440) [⟨⟨1, "doctor", some ⟨true, 20⟩⟩, 20240, 600,
        60, .scheduled, none, none, none⟩]
        ⟨⟨1, "doctor", some ⟨true, 20⟩⟩, 20240, 630, 60⟩ = .ok ()
    ∧ validate (20240 * 1440) [⟨⟨1, "doctor", some ⟨true, 20⟩⟩, 20240, 600,
        60, .scheduled, none, none, none⟩]
        ⟨⟨1, "doctor", some ⟨true, 20⟩⟩, 20240, 600, 60⟩
      = .error [.slotConflict] :=
  ⟨(slot_conflict_exact (20240 * 1440)
      [⟨⟨1, "doctor", some ⟨true, 20⟩⟩, 20240, 600, 60, .scheduled, none, none, none⟩]
      ⟨⟨1, "doctor", some ⟨true, 20⟩⟩, 20240, 630, 60⟩
      (by decide) (by decide) (by decide) (by decide) (by decide)
      (by decide)).2 (by decide),
   (slot_conflict_exact (20240 * 1440)
      [⟨⟨1, "doctor", some ⟨true, 20⟩⟩, 20240, 600, 60, .scheduled, none, none, none⟩]
      ⟨⟨1, "doctor", some ⟨true, 20⟩⟩, 20240, 600, 60⟩
      (by decide) (by decide) (by decide) (by decide) (by decide)
      (by decide)).1.mpr (by decide)⟩

/-! ## C7: the creation path never enforces daily capacity -/

theorem capacity_not_mem_fieldErrorsWin (win : Option TimeWindow) (now : Nat)
    (req : CreateReq) :
    Reason.capacityExceeded ∉ fieldErrorsWin win now req := by
  unfold fieldErrorsWin doctorErrors dateErrors timeErrorsWin durationErrors
  cases win <;> cases req.doctor.profile <;> split_ifs <;> simp

theorem capacity_not_mem_cleanErrors (now : Nat) (b : Booking) :
    Reason.capacityExceeded ∉ cleanErrors now b := by
  unfold cleanErrors
  cases b.doctor.profile <;> split_ifs <;> simp

theorem validateCore_error_no_capacity (win : Option TimeWindow) (now : Nat)
    (s : List Booking) (req : CreateReq) (es : List Reason)
    (h : validateCore win now s req = .error es) :
    Reason.capacityExceeded ∉ es := by
  unfold validateCore at h
  by_cases hfe : fieldErrorsWin win now req = []
  · rw [if_pos hfe] at h
    by_cases hp : combine req.date req.time < now
    · rw [if_pos hp] at h
      cases Except.error.inj h
      decide
    · rw [if_neg hp] at h
      by_cases hcf : conflictExists s req.doctor.id req.date req.time = true
      · rw [if_pos hcf] at h
        cases Except.error.inj h
        decide
      · rw [if_neg hcf] at h
        cases h
  · rw [if_neg hfe] at h
    cases Except.error.inj h
    exact capacity_not_mem_fieldErrorsWin win now req

/-- C7 counterexample: doctor 1 allows one patient per day
(`max_patients_per_day = 1`) and already has a scheduled appointment
today, so `can_accept_more_patients_today` is false — yet the creation
path accepts a second same-day booking at a free slot. -/
theorem capacity_check_missing_cex :
    canAcceptMorePatientsToday
        [⟨⟨1, "doctor", some ⟨true, 1⟩⟩, 0, 540, 30, .scheduled, none, none, none⟩]
        1 0 1 = false
    ∧ createOp 480 ⟨⟨1, "doctor", some ⟨true, 1⟩⟩, 0, 600, 30⟩
        [⟨⟨1, "doctor", some ⟨true, 1⟩⟩, 0, 540, 30, .scheduled, none, none, none⟩]
      = .ok [⟨⟨1, "doctor", some ⟨true, 1⟩⟩, 0, 540, 30, .scheduled, none, none, none⟩,
             ⟨⟨1, "doctor", some ⟨true, 1⟩⟩, 0, 600, 30, .scheduled, none, none, none⟩] := by
  constructor
  · decide
  · decide

/-- C7 (amended): the creation path performs no capacity check at all —
`validate`+commit never rejects with `CapacityExceeded`, whatever the
doctor's `max_patients_per_day` and same-day booking count;
`can_accept_more_patients_today` is computed by the doctor model but is
only surfaced by read-only availability endpoints. -/
theorem no_capacity_check (now : Nat) (req : CreateReq) (s : List Booking) :
    (errorsOf (createOp now req s)).contains Reason.capacityExceeded = false := by
  have hmem : Reason.capacityExceeded ∉ errorsOf (createOp now req s) := by
    cases hv : validate now s req with
    | error es =>
        have hrun : createOp now req s = .error es := by
          simp [createOp, hv]
        rw [hrun]
        exact validateCore_error_no_capacity (some defaultWindow) now s req es hv
    | ok u =>
        cases u
        by_cases hce : cleanErrors now (newBooking req) = []
        · by_cases hcf : conflictExists s req.doctor.id req.date req.time = true
          · have hrun : createOp now req s = .error [.constraintViolation] := by
              simp [createOp, hv, hce, hcf]
            rw [hrun]
            decide
          · have hrun : createOp now req s = .ok (s ++ [newBooking req]) := by
              simp [createOp, hv, hce, hcf]
            rw [hrun]
            simp [errorsOf]
        · have hrun : createOp now req s = .error (cleanErrors now (newBooking req)) := by
            simp [createOp, hv, hce]
          rw [hrun]
          exact capacity_not_mem_cleanErrors now (newBooking req)
  cases hc : (errorsOf (createOp now req s)).contains Reason.capacityExceeded
  · rfl
  · exact absurd (List.elem_iff.mp hc) hmem

/-! ## C9: availability slots filter on active statuses, not non-cancelled -/

/-- C9 counterexample: a `completed` (hence non-cancelled) booking
occupies 09:00 on day 0, yet 09:00 is still listed among the available
slots — the views filter on `status__in ['scheduled', 'confirmed',
'in_progress']`, not on "non-cancelled". -/
theorem available_slots_cex :
    Status.completed ≠ Status.cancelled
    ∧ 540 ∈ availableSlots
        [⟨⟨1, "doctor", some ⟨true, 20⟩⟩, 0, 540, 30, .completed, none, none, none⟩]
        1 0 := by
  constructor
  · decide
  · decide

/-- C9 (amended): `available_slots` enumerates the start times stepping by
the 30-minute granularity across the hardcoded 09:00–17:00 window (09:00
inclusive to 17:00 exclusive), and a candidate time is included exactly
when no existing booking of that doctor on that date with status in
{scheduled, confirmed, in_progress} — not merely "non-cancelled" — has
that exact start time. -/
theorem available_slots_amended :
    (∀ t : Nat, t ∈ candidateTimes
        ↔ 540 ≤ t ∧ t < 1020 ∧ (t - 540) % 30 = 0)
    ∧ (∀ (s : List Booking) (docId d t : Nat),
        t ∈ availableSlots s docId d
          ↔ t ∈ candidateTimes
            ∧ ∀ b ∈ s, b.doctor.id = docId → b.date = d →
                isActive b.status = true → b.time ≠ t) := by
  constructor
  · intro t
    simp only [candidateTimes, List.mem_map, List.mem_range]
    constructor
    · rintro ⟨k, hk, rfl⟩
      omega
    · rintro ⟨h1, h2, h3⟩
      exact ⟨(t - 540) / 30, by omega, by omega⟩
  · intro s docId d t
    rw [availableSlots, List.mem_filter]
    apply and_congr_right
    intro _
    rw [Bool.not_eq_true']
    constructor
    · intro hfalse b hbs hid hdt hact htime
      have : conflictExists s docId d t = true :=
        (conflictExists_iff s docId d t).mpr ⟨b, hbs, hid, hdt, htime, hact⟩
      rw [this] at hfalse
      cases hfalse
    · intro hall
      cases hconf : conflictExists s docId d t
      · rfl
      · exfalso
        rcases (conflictExists_iff s docId d t).mp hconf with
          ⟨b, hbs, hid, hdt, htm, hact⟩
        exact hall b hbs hid hdt hact htm

/-! ## C10: the update conflict check needs doctor, date and time together -/

theorem not_mem_optErrors {a : Type} (r : Reason) (f : a → List Reason)
    (h : ∀ v, r ∉ f v) (o : Option a) : r ∉ optErrors f o := by
  cases o <;> simp [optErrors, h]

theorem slotConflict_not_mem_updateFieldErrors (now : Nat) (b : Booking)
    (p : UpdatePayload) :
    Reason.slotConflict ∉ updateFieldErrors now b p := by
  unfold updateFieldErrors
  have h1 : ∀ d, Reason.slotConflict ∉ dateErrors now d := by
    intro d
    unfold dateErrors
    split <;> simp
  have h2 : ∀ t, Reason.slotConflict ∉ timeErrorsWin (some defaultWindow) t := by
    intro t
    unfold timeErrorsWin
    split <;> simp
  have h3 : ∀ t, Reason.slotConflict
      ∉ if transitionOK b.status t then ([] : List Reason) else
          [Reason.illegalTransition] := by
    intro t
    split <;> simp
  have h4 : ∀ n, Reason.slotConflict ∉ durationErrors n := by
    intro n
    unfold durationErrors
    split <;> simp
  simp [List.mem_append, not_mem_optErrors _ _ h1 p.date,
    not_mem_optErrors _ _ h2 p.time, not_mem_optErrors _ _ h3 p.status,
    not_mem_optErrors _ _ h4 p.duration]

/-- C10: the update serializer's slot-conflict check runs only when the
payload carries doctor, date and time all three — a payload missing any of
them can never be rejected with `SlotConflict`; in particular an update
that changes only the start time, or only the date, passes validation even
when it moves the booking onto a slot already occupied by another active
booking of the same doctor. -/
theorem update_conflict_needs_all_three :
    (∀ (now : Nat) (s : List Booking) (i : Nat) (p : UpdatePayload),
      p.doctor.isSome = false ∨ p.date.isSome = false ∨ p.time.isSome = false →
      (errorsOf (updateValidate now s i p)).contains Reason.slotConflict = false)
    ∧ (∀ (now : Nat) (s : List Booking) (i : Nat) (b : Booking) (t : Nat),
      s[i]? = some b → 540 ≤ t → t ≤ 1020 →
      (∃ j bj, j ≠ i ∧ s[j]? = some bj ∧ bj.doctor.id = b.doctor.id
        ∧ bj.date = b.date ∧ bj.time = t ∧ isActive bj.status = true) →
      updateValidate now s i ⟨none, none, some t, none, none⟩ = .ok ())
    ∧ (∀ (now : Nat) (s : List Booking) (i : Nat) (b : Booking) (d : Nat),
      s[i]? = some b → ¬ d < now / 1440 →
      (∃ j bj, j ≠ i ∧ s[j]? = some bj ∧ bj.doctor.id = b.doctor.id
        ∧ bj.date = d ∧ bj.time = b.time ∧ isActive bj.status = true) →
      updateValidate now s i ⟨none, some d, none, none, none⟩ = .ok ()) := by
  refine ⟨?_, ?_, ?_⟩
  · intro now s i p hmiss
    have hmem : Reason.slotConflict ∉ errorsOf (updateValidate now s i p) := by
      cases hb : s[i]? with
      | none =>
          have hrun : updateValidate now s i p = .error [.notFound] := by
            simp [updateValidate, hb]
          rw [hrun]
          decide
      | some b =>
          by_cases hfe : updateFieldErrors now b p = []
          · have hok : updateValidate now s i p = .ok () := by
              simp only [updateValidate, hb, hfe, if_pos]
              cases hpd : p.doctor <;> cases hpt : p.date <;>
                cases hptime : p.time <;> simp_all
            rw [hok]
            simp [errorsOf]
          · have hrun : updateValidate now s i p
                = .error (updateFieldErrors now b p) := by
              simp [updateValidate, hb, hfe]
            rw [hrun]
            exact slotConflict_not_mem_updateFieldErrors now b p
    cases hc : (errorsOf (updateValidate now s i p)).contains Reason.slotConflict
    · rfl
    · exact absurd (List.elem_iff.mp hc) hmem
  · intro now s i b t hb ht1 ht2 _
    have hfe : updateFieldErrors now b ⟨none, none, some t, none, none⟩ = [] := by
      simp [updateFieldErrors, optErrors, timeErrorsWin_eq_nil defaultWindow t ht1 ht2]
    simp [updateValidate, hb, hfe]
  · intro now s i b d hb hd _
    have hfe : updateFieldErrors now b ⟨none, some d, none, none, none⟩ = [] := by
      simp [updateFieldErrors, optErrors, dateErrors_eq_nil now d hd]
    simp [updateValidate, hb, hfe]

/-- C10 witness: moving booking 0 onto 11:00 — the exact slot of the other
active booking of the same doctor on the same day — with a time-only
payload passes validation. -/
theorem update_conflict_needs_all_three_witness :
    updateValidate (20240 * 1440)
        [⟨⟨1, "doctor", some ⟨true, 20⟩⟩, 20240, 600, 30, .scheduled, none, none, none⟩,
         ⟨⟨1, "doctor", some ⟨true, 20⟩⟩, 20240, 660, 30, .scheduled, none, none, none⟩]
        0 ⟨none, none, some 660, none, none⟩ = .ok () :=
  update_conflict_needs_all_three.2.1 (20240 * 1440)
    [⟨⟨1, "doctor", some ⟨true, 20⟩⟩, 20240, 600, 30, .scheduled, none, none, none⟩,
     ⟨⟨1, "doctor", some ⟨true, 20⟩⟩, 20240, 660, 30, .scheduled, none, none, none⟩]
    0 ⟨⟨1, "doctor", some ⟨true, 20⟩⟩, 20240, 600, 30, .scheduled, none, none, none⟩
    660 (by decide) (by decide) (by decide)
    ⟨1, ⟨⟨1, "doctor", some ⟨true, 20⟩⟩, 20240, 660, 30, .scheduled, none, none, none⟩,
      by decide, by decide, by decide, by decide, by decide, by decide⟩

/-! ## C1: the double-booking invariant -/

/-- `ActiveUnique` phrased over optional indexing, convenient for
reasoning about `++` and `set`. -/
def ActiveUniqueQ (s : List Booking) : Prop :=
  ∀ (i j : Nat) (bi bj : Booking), i < j → s[i]? = some bi →
    s[j]? = some bj → isActive bi.status = true → isActive bj.status = true →
    slotOf bi ≠ slotOf bj

theorem activeUnique_iff (s : List Booking) :
    ActiveUnique s ↔ ActiveUniqueQ s := by
  constructor
  · intro h i j bi bj hij hi hj hai haj
    have hil : i < s.length := (List.getElem?_eq_some.mp hi).1
    have hjl : j < s.length := (List.getElem?_eq_some.mp hj).1
    have hbi : s.get ⟨i, hil⟩ = bi := by
      have := List.getElem?_eq_getElem hil
      rw [hi] at this
      exact (Option.some.inj this).symm
    have hbj : s.get ⟨j, hjl⟩ = bj := by
      have := List.getElem?_eq_getElem hjl
      rw [hj] at this
      exact (Option.some.inj this).symm
    have := h ⟨i, hil⟩ ⟨j, hjl⟩ (by simp; omega)
    rw [hbi, hbj] at this
    exact this hai haj
  · intro h i j hij hai haj
    rcases Nat.lt_or_ge i.val j.val with hlt | hge
    · exact h i.val j.val _ _ hlt (List.getElem?_eq_getElem i.isLt)
        (List.getElem?_eq_getElem j.isLt) hai haj
    · have hlt : j.val < i.val := by
        rcases Nat.lt_or_ge j.val i.val with h' | h'
        · exact h'
        · exact absurd (Fin.ext (Nat.le_antisymm h' hge)) hij
      exact fun he => (h j.val i.val _ _ hlt (List.getElem?_eq_getElem j.isLt)
        (List.getElem?_eq_getElem i.isLt) haj hai) he.symm

theorem activeUniqueQ_nil : ActiveUniqueQ [] := by
  intro i j bi bj hij hi hj
  simp at hi

theorem activeUniqueQ_append (s : List Booking) (b : Booking)
    (h : ActiveUniqueQ s)
    (hb : ∀ c ∈ s, isActive c.status = true → slotOf c ≠ slotOf b) :
    ActiveUniqueQ (s ++ [b]) := by
  intro i j bi bj hij hi hj hai haj
  have hjl : j < s.length + 1 := by
    have := (List.getElem?_eq_some.mp hj).1
    simpa using this
  rcases Nat.lt_or_ge j s.length with hjs | hjs
  · have his : i < s.length := Nat.lt_trans hij hjs
    rw [List.getElem?_append_left his] at hi
    rw [List.getElem?_append_left hjs] at hj
    exact h i j bi bj hij hi hj hai haj
  · have hje : j = s.length := by omega
    subst hje
    rw [List.getElem?_append_right hjs] at hj
    simp at hj
    have his : i < s.length := hij
    rw [List.getElem?_append_left his] at hi
    have hmem : bi ∈ s := List.getElem?_mem hi
    rw [← hj]
    exact hb bi hmem hai

theorem activeUniqueQ_set (s : List Booking) (k : Nat) (b0 bNew : Booking)
    (h : ActiveUniqueQ s) (hk : s[k]? = some b0)
    (hslot : slotOf bNew = slotOf b0)
    (hact : isActive bNew.status = true → isActive b0.status = true) :
    ActiveUniqueQ (s.set k bNew) := by
  have hkl : k < s.length := (List.getElem?_eq_some.mp hk).1
  intro i j bi bj hij hi hj hai haj
  by_cases hik : i = k
  · subst hik
    rw [List.getElem?_set_eq_of_lt _ hkl] at hi
    cases Option.some.inj hi
    have hjk : j ≠ i := by omega
    rw [List.getElem?_set_ne (fun he => hjk he.symm)] at hj
    rw [hslot]
    exact h i j b0 bj hij hk hj (hact hai) haj
  · by_cases hjk : j = k
    · subst hjk
      rw [List.getElem?_set_eq_of_lt _ hkl] at hj
      cases Option.some.inj hj
      rw [List.getElem?_set_ne (fun he => hik he.symm)] at hi
      intro he
      exact h i j bi b0 hij hi hk hai (hact haj) (by rw [← hslot]; exact he)
    · rw [List.getElem?_set_ne (fun he => hik he.symm)] at hi
      rw [List.getElem?_set_ne (fun he => hjk he.symm)] at hj
      exact h i j bi bj hij hi hj hai haj

theorem validateCore_ok_no_conflict (win : Option TimeWindow) (now : Nat)
    (s : List Booking) (req : CreateReq)
    (h : validateCore win now s req = .ok ()) :
    conflictExists s req.doctor.id req.date req.time = false := by
  unfold validateCore at h
  by_cases hfe : fieldErrorsWin win now req = []
  · rw [if_pos hfe] at h
    by_cases hp : combine req.date req.time < now
    · rw [if_pos hp] at h
      cases h
    · rw [if_neg hp] at h
      by_cases hcf : conflictExists s req.doctor.id req.date req.time = true
      · rw [if_pos hcf] at h
        cases h
      · simpa using hcf
  · rw [if_neg hfe] at h
    cases h

theorem createOp_ok_shape (now : Nat) (req : CreateReq) (s s' : List Booking)
    (h : createOp now req s = .ok s') :
    s' = s ++ [newBooking req]
      ∧ conflictExists s req.doctor.id req.date req.time = false := by
  cases hv : validate now s req with
  | error es =>
      simp only [createOp, hv] at h
      cases h
  | ok u =>
      cases u
      simp only [createOp, hv] at h
      by_cases hce : cleanErrors now (newBooking req) = []
      · rw [if_pos hce] at h
        by_cases hcf : conflictExists s req.doctor.id req.date req.time = true
        · rw [if_pos hcf] at h
          cases h
        · rw [if_neg hcf] at h
          exact ⟨(Except.ok.inj h).symm, by simpa using hcf⟩
      · rw [if_neg hce] at h
        cases h

theorem allowed_active (cur t : Status) :
    t ∈ allowedTransitions cur → isActive t = true → isActive cur = true := by
  cases cur <;> cases t <;> decide

theorem applyStatusUpdate_status_none (now user : Nat)
    (reason : Option String) (b : Booking) :
    (applyStatusUpdate now user none reason b).status = b.status := by
  cases reason <;> simp [applyStatusUpdate]

theorem applyStatusUpdate_active (now user : Nat) (target : Option Status)
    (reason : Option String) (b : Booking)
    (hleg : legalTarget b.status target = true)
    (ha : isActive (applyStatusUpdate now user target reason b).status = true) :
    isActive b.status = true := by
  cases target with
  | none =>
      rw [applyStatusUpdate_status_none] at ha
      exact ha
  | some t =>
      rw [applyStatusUpdate_status] at ha
      simp only [legalTarget] at hleg
      rcases (transitionOK_iff b.status t).mp hleg with he | hm
      · rw [← he]
        exact ha
      · exact allowed_active b.status t hm ha

theorem statusUpdateOp_ok_shape (now user i : Nat) (target : Option Status)
    (reason : Option String) (s s' : List Booking)
    (h : statusUpdateOp now user i target reason s = .ok s') :
    ∃ b, s[i]? = some b ∧ legalTarget b.status target = true
      ∧ s' = s.set i (applyStatusUpdate now user target reason b) := by
  cases hb : s[i]? with
  | none =>
      simp only [statusUpdateOp, hb] at h
      cases h
  | some b =>
      simp only [statusUpdateOp, hb] at h
      by_cases hleg : legalTarget b.status target = true
      · rw [if_pos hleg] at h
        by_cases hcl : cleanErrors now (applyStatusUpdate now user target reason b) = []
        · rw [if_pos hcl] at h
          exact ⟨b, rfl, hleg, (Except.ok.inj h).symm⟩
        · rw [if_neg hcl] at h
          cases h
      · rw [if_neg hleg] at h
        cases h

theorem cancelOp_ok_shape (now user i : Nat) (reason : String)
    (s s' : List Booking) (h : cancelOp now user i reason s = .ok s') :
    ∃ b, s[i]? = some b
      ∧ s' = s.set i { b with status := .cancelled, cancelledAt := some now, cancelledBy := some user, cancellationReason := some reason } := by
  cases hb : s[i]? with
  | none =>
      simp only [cancelOp, hb] at h
      cases h
  | some b =>
      simp only [cancelOp, hb] at h
      by_cases hst : (b.status == Status.cancelled || b.status == Status.completed) = true
      · rw [if_pos hst] at h
        cases h
      · rw [if_neg hst] at h
        by_cases hcl : cleanErrors now { b with status := Status.cancelled, cancelledAt := some now, cancelledBy := some user, cancellationReason := some reason } = []
        · rw [if_pos hcl] at h
          exact ⟨b, rfl, (Except.ok.inj h).symm⟩
        · rw [if_neg hcl] at h
          cases h

theorem deleteOp_ok_shape (now user i : Nat) (s s' : List Booking)
    (h : deleteOp now user i s = .ok s') :
    ∃ b, s[i]? = some b
      ∧ s' = s.set i { b with status := .cancelled, cancelledAt := some now, cancelledBy := some user, cancellationReason := some "Deleted by user" } := by
  cases hb : s[i]? with
  | none =>
      simp only [deleteOp, hb] at h
      cases h
  | some b =>
      simp only [deleteOp, hb] at h
      by_cases hcl : cleanErrors now { b with status := Status.cancelled, cancelledAt := some now, cancelledBy := some user, cancellationReason := some "Deleted by user" } = []
      · rw [if_pos hcl] at h
        exact ⟨b, rfl, (Except.ok.inj h).symm⟩
      · rw [if_neg hcl] at h
        cases h

theorem reachable_activeUniqueQ (s : List Booking) (h : Reachable s) :
    ActiveUniqueQ s := by
  induction h with
  | init => exact activeUniqueQ_nil
  | create s now req s' _ hok ih =>
      rcases createOp_ok_shape now req s s' hok with ⟨hs', hcf⟩
      subst hs'
      apply activeUniqueQ_append s (newBooking req) ih
      intro c hc hac he
      have : conflictExists s req.doctor.id req.date req.time = true := by
        refine (conflictExists_iff s req.doctor.id req.date req.time).mpr
          ⟨c, hc, ?_, ?_, ?_, hac⟩
        · exact congrArg Prod.fst he
        · exact congrArg (fun q => q.2.1) he
        · exact congrArg (fun q => q.2.2) he
      rw [this] at hcf
      cases hcf
  | statusUpd s now user i target reason s' _ hok ih =>
      rcases statusUpdateOp_ok_shape now user i target reason s s' hok with
        ⟨b, hb, hleg, hs'⟩
      subst hs'
      refine activeUniqueQ_set s i b _ ih hb ?_ ?_
      · unfold slotOf
        rw [applyStatusUpdate_doctor, applyStatusUpdate_date,
          applyStatusUpdate_time]
      · exact applyStatusUpdate_active now user target reason b hleg
  | cancel s now user i reason s' _ hok ih =>
      rcases cancelOp_ok_shape now user i reason s s' hok with ⟨b, hb, hs'⟩
      subst hs'
      refine activeUniqueQ_set s i b _ ih hb rfl ?_
      intro ha
      simp [isActive] at ha
  | del s now user i s' _ hok ih =>
      rcases deleteOp_ok_shape now user i s s' hok with ⟨b, hb, hs'⟩
      subst hs'
      refine activeUniqueQ_set s i b _ ih hb rfl ?_
      intro ha
      simp [isActive] at ha

/-- C1: in every store state reachable from empty through creation
(validate + commit) and the status-changing endpoints, the
`(doctor, date, time)` slot is unique among bookings with status in
{scheduled, confirmed, in_progress}; and a creation aimed at a slot on
which an active booking already sits is always rejected. -/
theorem no_double_booking :
    (∀ s : List Booking, Reachable s → ActiveUnique s)
    ∧ (∀ (s : List Booking) (now : Nat) (req : CreateReq),
        (∃ b ∈ s, isActive b.status = true
          ∧ slotOf b = (req.doctor.id, req.date, req.time)) →
        ∃ es, createOp now req s = .error es) := by
  constructor
  · intro s h
    exact (activeUnique_iff s).mpr (reachable_activeUniqueQ s h)
  · intro s now req hocc
    have hconf : conflictExists s req.doctor.id req.date req.time = true := by
      rcases hocc with ⟨b, hbs, hact, hslot⟩
      refine (conflictExists_iff s req.doctor.id req.date req.time).mpr
        ⟨b, hbs, ?_, ?_, ?_, hact⟩
      · exact congrArg Prod.fst hslot
      · exact congrArg (fun q => q.2.1) hslot
      · exact congrArg (fun q => q.2.2) hslot
    cases hv : validate now s req with
    | error es =>
        refine ⟨es, ?_⟩
        simp [createOp, hv]
    | ok u =>
        exfalso
        cases u
        have := validateCore_ok_no_conflict (some defaultWindow) now s req hv
        rw [hconf] at this
        cases this

/-- C1 witness: from the empty store, booking doctor 1 at 10:00 on day
20240 commits; the resulting one-row state satisfies the invariant, and a
second creation aimed at the same slot is rejected. -/
theorem no_double_booking_witness :
    ActiveUnique
      [⟨⟨1, "doctor", some ⟨true, 20⟩⟩, 20240, 600, 30, .scheduled, none, none, none⟩]
    ∧ ∃ es, createOp (20240 * 1440) ⟨⟨1, "doctor", some ⟨true, 20⟩⟩, 20240, 600, 45⟩
        [⟨⟨1, "doctor", some ⟨true, 20⟩⟩, 20240, 600, 30, .scheduled, none, none, none⟩]
      = .error es :=
  ⟨no_double_booking.1
      [⟨⟨1, "doctor", some ⟨true, 20⟩⟩, 20240, 600, 30, .scheduled, none, none, none⟩]
      (Reachable.create [] (20240 * 1440)
        ⟨⟨1, "doctor", some ⟨true, 20⟩⟩, 20240, 600, 30⟩
        [⟨⟨1, "doctor", some ⟨true, 20⟩⟩, 20240, 600, 30, .scheduled, none, none, none⟩]
        Reachable.init (by decide)),
   no_double_booking.2
      [⟨⟨1, "doctor", some ⟨true, 20⟩⟩, 20240, 600, 30, .scheduled, none, none, none⟩]
      (20240 * 1440) ⟨⟨1, "doctor", some ⟨true, 20⟩⟩, 20240, 600, 45⟩
      ⟨⟨⟨1, "doctor", some ⟨true, 20⟩⟩, 20240, 600, 30, .scheduled, none, none, none⟩,
        by decide, by decide, by decide⟩⟩

end HospitalBooking
